import Mathlib

/-!
Verification of the shopify-orders-api backend (Node.js/Express).

This file gives a shallow embedding in Lean 4 of the parts of the code that
the checked properties talk about:

* `src/utils/shopValidator.js` — `normalizeShopDomain`, `isValidShopDomain`,
  `validateAndNormalizeShop`;
* `src/store/shops.js` — the flat-file token table (`saveShopToken`,
  `getShopToken`, `isShopAuthenticated`, `removeShop`), with the JSON file
  modelled as an association list with unique keys and each `writeShops`
  call recorded explicitly;
* `src/middleware/auth.js` and its variant — the Bearer gate;
* `src/routes/orders.js` — the `limit` clamp and `formatOrder`;
* the OAuth callback route with HMAC verification (`verifyHmac`,
  `GET /auth/callback`) — the handler becomes a pure function from the
  request, the environment, the nonce table, the token table and the
  (externally determined) outcome of the code-for-token exchange to a
  response status plus the successor tables.  The HMAC-SHA256 digest itself
  is an opaque parameter of the model; everything around it (parameter
  sorting, message building, hex decoding, the comparison semantics of
  `crypto.timingSafeEqual`) is embedded concretely.

JavaScript's relevant semantics are embedded explicitly: strings are Lean
`String`s, `null`/`undefined` inputs become `Option`, falsiness of strings
(`""` is falsy) is spelled out at each use site, and `parseInt` is modelled
with its leading-whitespace/sign/hex-prefix behaviour.
-/

namespace ShopifyOrdersApi

/-! ## JavaScript string primitives -/

/-- Whitespace recognised by JS `String.prototype.trim` (ASCII part). -/
def isJsWhitespace (c : Char) : Bool :=
  c = ' ' || c = '\t' || c = '\n' || c = '\x0b' || c = '\x0c' || c = '\r'

/-- ASCII lowering, as `String.prototype.toLowerCase` acts on A–Z. -/
def jsToLower (c : Char) : Char :=
  if 65 ≤ c.toNat ∧ c.toNat ≤ 90 then Char.ofNat (c.toNat + 32) else c

def lowerChars (l : List Char) : List Char := l.map jsToLower

/-- `trim`: drop JS whitespace from both ends. -/
def trimChars (l : List Char) : List Char :=
  ((l.dropWhile isJsWhitespace).reverse.dropWhile isJsWhitespace).reverse

/-- Case-insensitive character comparison used for the `/^https?:\/\//i` test. -/
def charCaseEq (a b : Char) : Bool := jsToLower a = jsToLower b

/-- Does `l` start with `p`, compared case-insensitively? -/
def startsWithCaseless : List Char → List Char → Bool
  | [], _ => true
  | _ :: _, [] => false
  | p :: ps, c :: cs => charCaseEq p c && startsWithCaseless ps cs

/-- `normalized.replace(/^https?:\/\//i, '')`: strip one leading protocol. -/
def stripProtocol (l : List Char) : List Char :=
  if startsWithCaseless "https://".data l then l.drop 8
  else if startsWithCaseless "http://".data l then l.drop 7
  else l

/-- `normalized.split('/')[0]`: everything before the first `/`. -/
def beforeFirstSlash (l : List Char) : List Char := l.takeWhile (· ≠ '/')

/-- `normalized.replace(/\/+$/, '')`: drop trailing slashes. -/
def dropTrailingSlashes (l : List Char) : List Char :=
  (l.reverse.dropWhile (· = '/')).reverse

/-! ## `src/utils/shopValidator.js` -/

/--
`normalizeShopDomain(shop)`.  A `none` argument stands for `null`/`undefined`
or a non-string value (`!shop || typeof shop !== 'string'` also sends the
empty string to `null`).  The body is `trim`, strip `http://`/`https://`,
keep the part before the first `/`, drop trailing slashes, lowercase —
in the source's order.
-/
def normalizeShopDomain (shop : Option String) : Option String :=
  match shop with
  | none => none
  | some s =>
    if s = "" then none
    else
      some (String.mk (lowerChars (dropTrailingSlashes
        (beforeFirstSlash (stripProtocol (trimChars s.data))))))

def isLowerAlnum (c : Char) : Bool :=
  ('a' ≤ c && c ≤ 'z') || ('0' ≤ c && c ≤ '9')

def isLowerAlnumDash (c : Char) : Bool := isLowerAlnum c || c = '-'

/--
Subdomain part of the source regex
`/^[a-z0-9][a-z0-9-]*[a-z0-9]\.myshopify\.com$|^[a-z0-9]\.myshopify\.com$/`:
either two or more characters with alphanumeric ends and `[a-z0-9-]` middle,
or a single alphanumeric character.
-/
def subdomainMatchSrc : List Char → Bool
  | [] => false
  | [c] => isLowerAlnum c
  | c :: rest =>
    isLowerAlnum c && rest.dropLast.all isLowerAlnumDash &&
      isLowerAlnum (rest.getLastD ' ')

/-- Split `l` as `sub ++ ".myshopify.com"`, if it has that suffix. -/
def splitMyshopifySuffix (l : List Char) : Option (List Char) :=
  let suffix := ".myshopify.com".data
  if l.drop (l.length - suffix.length) = suffix && suffix.length ≤ l.length then
    some (l.take (l.length - suffix.length))
  else none

/-- The whole source regex of `isValidShopDomain` in `shopValidator.js`. -/
def shopRegexTestSrc (l : List Char) : Bool :=
  match splitMyshopifySuffix l with
  | none => false
  | some sub => subdomainMatchSrc sub

/--
`isValidShopDomain(shop)` from `shopValidator.js`: normalize, reject a
falsy (`null` or `""`) result, then test the regex.
-/
def isValidShopDomain (shop : Option String) : Bool :=
  match normalizeShopDomain shop with
  | none => false
  | some n => if n = "" then false else shopRegexTestSrc n.data

/--
Modelled from the spec: subdomain part of the spec's validity regex
`^[a-z0-9]([a-z0-9-]*[a-z0-9])?\.myshopify\.com$` — one leading
alphanumeric character, optionally followed by a `[a-z0-9-]*` run ending in
an alphanumeric character.  Written from the spec's words, to be compared
with `subdomainMatchSrc` (refinement for claim C4).
-/
def subdomainMatchSpec : List Char → Bool
  | [] => false
  | c :: rest =>
    isLowerAlnum c &&
      (rest.isEmpty || (rest.dropLast.all isLowerAlnumDash &&
        isLowerAlnum (rest.getLastD ' ')))

/-- Modelled from the spec: the full spec regex over a candidate string. -/
def shopRegexTestSpec (l : List Char) : Bool :=
  match splitMyshopifySuffix l with
  | none => false
  | some sub => subdomainMatchSpec sub

/-- Modelled from the spec: validity = normalized form matches the spec regex. -/
def isValidShopDomainSpec (shop : Option String) : Bool :=
  match normalizeShopDomain shop with
  | none => false
  | some n => shopRegexTestSpec n.data

/-- Result shape of `validateAndNormalizeShop`. -/
structure ShopCheck where
  valid : Bool
  normalized : Option String
  deriving Repr, DecidableEq

/-- `validateAndNormalizeShop(shop)` from `shopValidator.js`. -/
def validateAndNormalizeShop (shop : Option String) : ShopCheck :=
  match normalizeShopDomain shop with
  | none => { valid := false, normalized := none }
  | some n =>
    if n = "" then { valid := false, normalized := none }
    else if isValidShopDomain (some n) then
      { valid := true, normalized := some n }
    else
      { valid := false, normalized := some n }

/-! ## `src/store/shops.js`

The `shops.json` file holds a JSON object keyed by shop domain.  It is
modelled as an association list with JS-object semantics (at most one
binding per key; an overwrite keeps the key's position, a fresh key is
appended).  Each mutating operation reports whether `writeShops` ran, so
that frame claims about the persisted file can be stated.
-/

structure ShopEntry where
  access_token : String
  installed_at : String
  deriving Repr, DecidableEq

abbrev ShopsTable := List (String × ShopEntry)

/-- First binding for `k`, as JS property lookup on the parsed object. -/
def findShop : ShopsTable → String → Option ShopEntry
  | [], _ => none
  | (k', v) :: rest, k => if k' = k then some v else findShop rest k

/-- `shops[shop] = {...}`: overwrite in place, or append a new key. -/
def setShop : ShopsTable → String → ShopEntry → ShopsTable
  | [], k, v => [(k, v)]
  | (k', v') :: rest, k, v =>
    if k' = k then (k, v) :: rest else (k', v') :: setShop rest k v

/-- `delete shops[shop]`. -/
def eraseShop (t : ShopsTable) (k : String) : ShopsTable :=
  t.filter (fun p => p.1 ≠ k)

/-- Outcome of a store mutation: returned boolean, successor table, and
whether `writeShops` rewrote the file. -/
structure StoreResult where
  ok : Bool
  table : ShopsTable
  wrote : Bool
  deriving Repr, DecidableEq

/-- `saveShopToken(shop, accessToken)`; `now` stands for
`new Date().toISOString()` and the file write is modelled as succeeding. -/
def saveShopToken (t : ShopsTable) (shop accessToken now : String) : StoreResult :=
  { ok := true, table := setShop t shop ⟨accessToken, now⟩, wrote := true }

/-- `getShopToken(shop)`: `shops[shop]?.access_token || null` — an absent
record gives `null`, and so does a falsy (empty) stored token. -/
def getShopToken (t : ShopsTable) (shop : String) : Option String :=
  match findShop t shop with
  | none => none
  | some e => if e.access_token = "" then none else some e.access_token

/-- `isShopAuthenticated(shop)`: `getShopToken(shop) !== null`. -/
def isShopAuthenticated (t : ShopsTable) (shop : String) : Bool :=
  (getShopToken t shop).isSome

/-- `removeShop(shop)`: only a present key (`if (shops[shop])`, entries are
objects and hence truthy) is deleted and rewritten; otherwise `false` with
no file write. -/
def removeShop (t : ShopsTable) (shop : String) : StoreResult :=
  match findShop t shop with
  | some _ => { ok := true, table := eraseShop t shop, wrote := true }
  | none => { ok := false, table := t, wrote := false }

/-! ## Bearer gate: `src/middleware/auth.js` and its variant -/

inductive GateOutcome where
  | reject (status : Nat)
  | proceed
  deriving Repr, DecidableEq

/-- JS truthiness of an environment variable (`undefined` and `""` are falsy). -/
def envTruthy : Option String → Bool
  | none => false
  | some s => s ≠ ""

/-- Case-sensitive `String.prototype.startsWith`, on characters. -/
def startsWithChars : List Char → List Char → Bool
  | [], _ => true
  | _ :: _, [] => false
  | p :: ps, c :: cs => p = c && startsWithChars ps cs

/-- `authHeader.slice(7)`: text after `"Bearer "`. -/
def bearerToken (h : String) : String := String.mk (h.data.drop 7)

/--
`authMiddleware` from `src/middleware/auth.js`: missing configuration →
401; missing header or not `Bearer `-shaped → 401; token not exactly the
configured secret → 401; otherwise the request proceeds.
-/
def authMiddleware (envToken : Option String) (authHeader : Option String) : GateOutcome :=
  if ¬ envTruthy envToken then .reject 401
  else
    match authHeader with
    | none => .reject 401
    | some h =>
      if ¬ startsWithChars "Bearer ".data h.data then .reject 401
      else if bearerToken h ≠ envToken.getD "" then .reject 401
      else .proceed

/-- The variant middleware (unnamed source file): identical except that a
missing `API_BEARER_TOKEN` answers 500, and the missing-header and
bad-format cases answer 401 through two separate branches. -/
def authMiddlewareVariant (envToken : Option String) (authHeader : Option String) : GateOutcome :=
  if ¬ envTruthy envToken then .reject 500
  else
    match authHeader with
    | none => .reject 401
    | some h =>
      if ¬ startsWithChars "Bearer ".data h.data then .reject 401
      else if bearerToken h ≠ envToken.getD "" then .reject 401
      else .proceed

/--
Modelled from the spec: the Bearer gate as §4.5 words it, parameterised by
the status used when no secret is configured (401 in one deployment, 500
in the other).  An environment value of `""` counts as unconfigured, as
the fail-closed reading demands.
-/
def bearerGateSpec (configStatus : Nat) (envToken : Option String)
    (authHeader : Option String) : GateOutcome :=
  match envToken with
  | none => .reject configStatus
  | some s =>
    if s = "" then .reject configStatus
    else
      match authHeader with
      | none => .reject 401
      | some h =>
        if ¬ startsWithChars "Bearer ".data h.data then .reject 401
        else if bearerToken h ≠ s then .reject 401
        else .proceed

/-! ## `parseInt` and the orders `limit` clamp (`src/routes/orders.js`) -/

/-- Value of a hexadecimal digit. -/
def hexDigitVal (c : Char) : Option Nat :=
  if '0' ≤ c ∧ c ≤ '9' then some (c.toNat - 48)
  else if 'a' ≤ c ∧ c ≤ 'f' then some (c.toNat - 87)
  else if 'A' ≤ c ∧ c ≤ 'F' then some (c.toNat - 55)
  else none

/-- Value of a digit in radix 10 or 16. -/
def radixDigitVal (radix : Nat) (c : Char) : Option Nat :=
  if radix = 16 then hexDigitVal c
  else if '0' ≤ c ∧ c ≤ '9' then some (c.toNat - 48)
  else none

def digitsToNat (radix : Nat) (ds : List Char) : Nat :=
  ds.foldl (fun acc c => acc * radix + ((radixDigitVal radix c).getD 0)) 0

/--
JS `parseInt(s)` with no radix argument: skip leading whitespace, read an
optional sign, switch to hexadecimal after a `0x`/`0X` marker, then take
the longest run of digits; no digits at all yields `NaN` (`none` here).
Trailing garbage is ignored.
-/
def parseIntJs (s : String) : Option Int :=
  let l := s.data.dropWhile isJsWhitespace
  let signed : Int × List Char :=
    match l with
    | '-' :: r => (-1, r)
    | '+' :: r => (1, r)
    | _ => (1, l)
  let based : Nat × List Char :=
    match signed.2 with
    | '0' :: 'x' :: r => (16, r)
    | '0' :: 'X' :: r => (16, r)
    | _ => (10, signed.2)
  let ds := based.2.takeWhile (fun c => (radixDigitVal based.1 c).isSome)
  if ds.isEmpty then none
  else some (signed.1 * (digitsToNat based.1 ds : Int))

/--
The `limit` forwarded upstream by `GET /v1/orders`:
`Math.min(Math.max(parseInt(limit) || 10, 1), 250)`, where the
destructuring default makes an absent parameter the number `10`, and
`|| 10` turns both `NaN` and `0` into `10`.
-/
def ordersLimitForwarded (limit : Option String) : Int :=
  let parsed : Option Int :=
    match limit with
    | none => parseIntJs "10"
    | some s => parseIntJs s
  let v : Int :=
    match parsed with
    | some n => if n = 0 then 10 else n
    | none => 10
  min (max v 1) 250

/-! ## JSON values and `formatOrder` (`src/routes/orders.js`) -/

/-- JSON-ish JS values; `jmissing` is `undefined` (an absent property). -/
inductive Json where
  | jnull
  | jmissing
  | jbool (b : Bool)
  | jnum (n : Int)
  | jstr (s : String)
  | jarr (items : List Json)
  | jobj (fields : List (String × Json))
  deriving Repr

def jfind : List (String × Json) → String → Option Json
  | [], _ => none
  | (k', v) :: rest, k => if k' = k then some v else jfind rest k

/-- Property access `o.k`: `undefined` when absent or not an object. -/
def jget (o : Json) (k : String) : Json :=
  match o with
  | .jobj fs =>
    match jfind fs k with
    | some v => v
    | none => .jmissing
  | _ => .jmissing

/-- JS truthiness of a value. -/
def jsTruthy : Json → Bool
  | .jnull => false
  | .jmissing => false
  | .jbool b => b
  | .jnum n => n ≠ 0
  | .jstr s => s ≠ ""
  | .jarr _ => true
  | .jobj _ => true

/-- Elements of an array value (the handler only maps over real arrays). -/
def jsArrayElems : Json → List Json
  | .jarr xs => xs
  | _ => []

def jsetField : List (String × Json) → String → Json → List (String × Json)
  | [], k, v => [(k, v)]
  | (k', v') :: rest, k, v =>
    if k' = k then (k, v) :: rest else (k', v') :: jsetField rest k v

/-- `o[k] = v` on an object (identity on non-objects). -/
def jobjSetField (o : Json) (k : String) (v : Json) : Json :=
  match o with
  | .jobj fs => .jobj (jsetField fs k v)
  | j => j

/-- The line-item projection inside `formatOrder`. -/
def formatLineItem (item : Json) : Json :=
  .jobj
    [ ("sku", jget item "sku"),
      ("title", jget item "title"),
      ("quantity", jget item "quantity"),
      ("variantId", jget item "variant_id"),
      ("productId", jget item "product_id") ]

/--
`formatOrder(order)` from `src/routes/orders.js`: the fixed projection of
an upstream Shopify order.  `order.customer ? {...} : null` and
`(order.line_items || []).map(...)` are embedded through `jsTruthy`.
-/
def formatOrder (order : Json) : Json :=
  .jobj
    [ ("id", jget order "id"),
      ("name", jget order "name"),
      ("createdAt", jget order "created_at"),
      ("financialStatus", jget order "financial_status"),
      ("fulfillmentStatus", jget order "fulfillment_status"),
      ("totalPrice", jget order "total_price"),
      ("currency", jget order "currency"),
      ("customer",
        if jsTruthy (jget order "customer") then
          .jobj
            [ ("firstName", jget (jget order "customer") "first_name"),
              ("lastName", jget (jget order "customer") "last_name"),
              ("email", jget (jget order "customer") "email") ]
        else .jnull),
      ("lineItems",
        .jarr ((jsArrayElems
          (if jsTruthy (jget order "line_items") then jget order "line_items"
           else .jarr [])).map formatLineItem)) ]

/-- Top-level key list of an object value. -/
def topKeys : Json → List String
  | .jobj fs => fs.map Prod.fst
  | _ => []

/-! ## HMAC verification and the OAuth callback route

From the unnamed auth router (the variant of `src/routes/auth.js` with
`verifyHmac`).  The HMAC-SHA256 digest is an opaque parameter
`digest : secret → message → hex string`; everything else — parameter
sorting, the `key=value&...` message, Node's `Buffer.from(·, 'hex')`
decoding and the `crypto.timingSafeEqual` comparison (throwing on length
mismatch, caught as `false`) — is embedded concretely.
-/

abbrev Query := List (String × String)

/-- `req.query.k`: the parameter, when present. -/
def qfind : Query → String → Option String
  | [], _ => none
  | (k', v) :: rest, k => if k' = k then some v else qfind rest k

/-- A query parameter that is present and truthy (`!shop`-style checks). -/
def truthyParam (q : Query) (k : String) : Option String :=
  match qfind q k with
  | some v => if v = "" then none else some v
  | none => none

/-- Node `Buffer.from(s, 'hex')`: decode pairs of hex digits, stopping at
the first invalid pair (an odd trailing digit is dropped). -/
def decodeHexPairs : List Char → List Nat
  | c1 :: c2 :: rest =>
    match hexDigitVal c1, hexDigitVal c2 with
    | some a, some b => (16 * a + b) :: decodeHexPairs rest
    | _, _ => []
  | _ => []

/-- Lexicographic `≤` on strings by code point, as `Array.prototype.sort`
compares keys. -/
def strLeChars : List Char → List Char → Bool
  | [], _ => true
  | _ :: _, [] => false
  | a :: as, b :: bs => if a = b then strLeChars as bs else decide (a < b)

def strLe (a b : String) : Bool := strLeChars a.data b.data

def insertSorted (s : String) : List String → List String
  | [] => [s]
  | t :: ts => if strLe s t then s :: t :: ts else t :: insertSorted s ts

def sortStrings : List String → List String
  | [] => []
  | s :: ss => insertSorted s (sortStrings ss)

/--
The message `verifyHmac` signs: all query parameters except `hmac`, keys
sorted lexicographically, joined as `key=value&...`.
-/
def hmacMessage (q : Query) : String :=
  let params := q.filter (fun p => p.1 ≠ "hmac")
  let keys := sortStrings ((params.map Prod.fst).eraseDups)
  String.intercalate "&" (keys.map (fun k => k ++ "=" ++ ((qfind params k).getD "")))

/--
`verifyHmac(query, secret)`: false when `hmac` is absent or falsy;
otherwise compare the hex-decoded supplied value against the hex-decoded
recomputed digest, `timingSafeEqual` style (a length mismatch throws and
is caught as `false`, so the comparison is plain equality of byte lists).
-/
def verifyHmac (digest : String → String → String) (q : Query) (secret : String) : Bool :=
  match qfind q "hmac" with
  | none => false
  | some hmac =>
    if hmac = "" then false
    else
      decodeHexPairs hmac.data = decodeHexPairs (digest secret (hmacMessage q)).data

/-! ### The nonce table and the callback handler -/

structure NonceEntry where
  shop : String
  createdAt : Nat
  deriving Repr, DecidableEq

abbrev NonceTable := List (String × NonceEntry)

def nfind : NonceTable → String → Option NonceEntry
  | [], _ => none
  | (k', v) :: rest, k => if k' = k then some v else nfind rest k

/-- `nonceStore.delete(state)`. -/
def nerase (t : NonceTable) (k : String) : NonceTable :=
  t.filter (fun p => p.1 ≠ k)

/-- The four environment variables `getOAuthConfig` reads. -/
structure OAuthEnv where
  shopifyApiKey : Option String
  shopifyApiSecret : Option String
  scopes : Option String
  host : Option String

structure OAuthConfig where
  clientId : String
  clientSecret : String
  scopes : String
  host : String

/-- `getOAuthConfig`: all four variables truthy, else a 500 is sent. -/
def getOAuthConfig (env : OAuthEnv) : Option OAuthConfig :=
  if envTruthy env.shopifyApiKey && envTruthy env.shopifyApiSecret &&
      envTruthy env.scopes && envTruthy env.host then
    some
      { clientId := env.shopifyApiKey.getD ""
        clientSecret := env.shopifyApiSecret.getD ""
        scopes := env.scopes.getD ""
        host := env.host.getD "" }
  else none

/-- What happened on the wire during the code-for-token POST: a parsed
response body, an HTTP error status, or a transport failure. -/
structure TokenExchangeData where
  access_token : Option String
  deriving Repr, DecidableEq

inductive ExchangeOutcome where
  | ok (data : TokenExchangeData)
  | httpError (status : Nat)
  | connectionError
  deriving Repr, DecidableEq

/-- Observable outcome of one `GET /auth/callback` request. -/
structure CallbackResult where
  status : Nat
  nonces : NonceTable
  shops : ShopsTable
  exchangeAttempted : Bool
  saveInvoked : Bool
  deriving Repr, DecidableEq

/-- An early-exit response: tables untouched, no exchange, no save. -/
def callbackStop (status : Nat) (nonces : NonceTable) (shops : ShopsTable) : CallbackResult :=
  { status := status, nonces := nonces, shops := shops
    exchangeAttempted := false, saveInvoked := false }

/--
The `GET /auth/callback` handler of the HMAC-verifying auth router, as a
function of the request query, the environment, the nonce and token
tables, and the outcome of the outbound exchange.  Faithful branch order:
required params (400) → shop validity (400) → configuration (500) → HMAC,
only when `req.query.hmac` is truthy (403) → `state` lookup (403) → shop
mismatch against the stored nonce (403) → `nonceStore.delete(state)` →
exchange → `access_token` falsy check (500) → `saveShopToken` → 200.
-/
def authCallback (digest : String → String → String) (env : OAuthEnv)
    (exchange : ExchangeOutcome) (installedAt : String) (q : Query)
    (nonces : NonceTable) (shops : ShopsTable) : CallbackResult :=
  match truthyParam q "shop", truthyParam q "code", truthyParam q "state" with
  | some shop, some _code, some state =>
    let v := validateAndNormalizeShop (some shop)
    if ¬ v.valid then callbackStop 400 nonces shops
    else
      let normalizedShop := v.normalized.getD ""
      match getOAuthConfig env with
      | none => callbackStop 500 nonces shops
      | some cfg =>
        if (truthyParam q "hmac").isSome && ! verifyHmac digest q cfg.clientSecret then
          callbackStop 403 nonces shops
        else
          match nfind nonces state with
          | none => callbackStop 403 nonces shops
          | some stored =>
            if stored.shop ≠ normalizedShop then callbackStop 403 nonces shops
            else
              let nonces2 := nerase nonces state
              match exchange with
              | .ok data =>
                match data.access_token with
                | some t =>
                  if t = "" then
                    { status := 500, nonces := nonces2, shops := shops
                      exchangeAttempted := true, saveInvoked := false }
                  else
                    { status := 200, nonces := nonces2
                      shops := (saveShopToken shops normalizedShop t installedAt).table
                      exchangeAttempted := true, saveInvoked := true }
                | none =>
                  { status := 500, nonces := nonces2, shops := shops
                    exchangeAttempted := true, saveInvoked := false }
              | .httpError s =>
                { status := s, nonces := nonces2, shops := shops
                  exchangeAttempted := true, saveInvoked := false }
              | .connectionError =>
                { status := 500, nonces := nonces2, shops := shops
                  exchangeAttempted := true, saveInvoked := false }
  | _, _, _ => callbackStop 400 nonces shops

/-! ## Association-table lemmas -/

theorem findShop_setShop_self (t : ShopsTable) (k : String) (v : ShopEntry) :
    findShop (setShop t k v) k = some v := by
  induction t with
  | nil => simp [setShop, findShop]
  | cons p rest ih =>
    obtain ⟨k', v'⟩ := p
    by_cases h : k' = k <;> simp [setShop, findShop, h, ih]

theorem setShop_setShop (t : ShopsTable) (k : String) (v w : ShopEntry) :
    setShop (setShop t k v) k w = setShop t k w := by
  induction t with
  | nil => simp [setShop]
  | cons p rest ih =>
    obtain ⟨k', v'⟩ := p
    by_cases h : k' = k <;> simp [setShop, h, ih]

theorem findShop_eraseShop_self (t : ShopsTable) (k : String) :
    findShop (eraseShop t k) k = none := by
  induction t with
  | nil => simp [eraseShop, findShop]
  | cons p rest ih =>
    obtain ⟨k', v'⟩ := p
    by_cases h : k' = k <;> simp [eraseShop, findShop, h] <;> simpa [eraseShop] using ih

theorem findShop_eraseShop_ne (t : ShopsTable) (k k' : String) (h : k' ≠ k) :
    findShop (eraseShop t k) k' = findShop t k' := by
  induction t with
  | nil => simp [eraseShop, findShop]
  | cons p rest ih =>
    obtain ⟨ka, va⟩ := p
    by_cases hk : ka = k
    · have hfilter : eraseShop ((ka, va) :: rest) k = eraseShop rest k := by
        simp [eraseShop, hk]
      have hne : ka ≠ k' := by rw [hk]; exact Ne.symm h
      rw [hfilter, ih]
      simp [findShop, hne]
    · have hfilter : eraseShop ((ka, va) :: rest) k = (ka, va) :: eraseShop rest k := by
        simp [eraseShop, hk]
      rw [hfilter]
      by_cases hk' : ka = k'
      · simp [findShop, hk']
      · simp [findShop, hk', ih]

/-! ## C3 — token store round-trip -/

/--
C3 (amended): for every table, domain `d` and **nonempty** tokens `t`,
`t2`, a `saveShopToken(d, t)` makes `getShopToken(d)` return `t`; a second
save overwrites rather than appends (saving twice equals saving once with
the later token); and `removeShop(d)` makes `getShopToken(d)` return
`null`.  The nonemptiness is forced by `shops[shop]?.access_token || null`,
which reads an empty stored token back as `null` (see the counterexample).
-/
theorem c3_token_store_round_trip (m : ShopsTable) (d t t2 now now2 : String)
    (ht : t ≠ "") (ht2 : t2 ≠ "") :
    getShopToken (saveShopToken m d t now).table d = some t ∧
    getShopToken (saveShopToken (saveShopToken m d t now).table d t2 now2).table d
      = some t2 ∧
    (saveShopToken (saveShopToken m d t now).table d t2 now2).table
      = (saveShopToken m d t2 now2).table ∧
    getShopToken (removeShop (saveShopToken m d t now).table d).table d = none := by
  refine ⟨?_, ?_, ?_, ?_⟩
  · simp [saveShopToken, getShopToken, findShop_setShop_self, ht]
  · simp [saveShopToken, getShopToken, findShop_setShop_self, ht2]
  · simp [saveShopToken, setShop_setShop]
  · simp [saveShopToken, removeShop, getShopToken, findShop_setShop_self,
      findShop_eraseShop_self]

/-- C3 witness: the round-trip at a concrete table and concrete tokens. -/
theorem c3_token_store_round_trip_witness :
    getShopToken (saveShopToken [] "d.myshopify.com" "tokA" "t1").table
      "d.myshopify.com" = some "tokA" ∧
    getShopToken (saveShopToken
      (saveShopToken [] "d.myshopify.com" "tokA" "t1").table
      "d.myshopify.com" "tokB" "t2").table "d.myshopify.com" = some "tokB" ∧
    (saveShopToken (saveShopToken [] "d.myshopify.com" "tokA" "t1").table
      "d.myshopify.com" "tokB" "t2").table
      = (saveShopToken [] "d.myshopify.com" "tokB" "t2").table ∧
    getShopToken (removeShop
      (saveShopToken [] "d.myshopify.com" "tokA" "t1").table
      "d.myshopify.com").table "d.myshopify.com" = none :=
  c3_token_store_round_trip [] "d.myshopify.com" "tokA" "tokB" "t1" "t2"
    (by decide) (by decide)

/--
C3 counterexample: with the empty-string token, `save(d, t)` is *not*
read back by `get(d)` — `shops[shop]?.access_token || null` collapses the
falsy stored token to `null`, refuting the claim's "for every ... tokens
t" at `t = ""`.
-/
theorem c3_empty_token_counterexample :
    getShopToken (saveShopToken [] "d.myshopify.com" "" "t1").table
      "d.myshopify.com" = none ∧
    getShopToken (saveShopToken [] "d.myshopify.com" "" "t1").table
      "d.myshopify.com" ≠ some "" := by
  decide

/-! ## C10 — removeShop frame -/

/--
C10: removing an absent domain returns `false` and performs no file write
(the table is returned untouched); removing a present domain writes, its
record disappears, and every other domain's record is unchanged.
-/
theorem c10_remove_shop_frame (m : ShopsTable) (d : String) :
    (findShop m d = none → removeShop m d = ⟨false, m, false⟩) ∧
    (∀ e, findShop m d = some e →
      (removeShop m d).ok = true ∧
      (removeShop m d).wrote = true ∧
      findShop (removeShop m d).table d = none ∧
      ∀ d', d' ≠ d → findShop (removeShop m d).table d' = findShop m d') := by
  constructor
  · intro h
    simp [removeShop, h]
  · intro e h
    refine ⟨by simp [removeShop, h], by simp [removeShop, h], ?_, ?_⟩
    · simp [removeShop, h, findShop_eraseShop_self]
    · intro d' hd'
      simp [removeShop, h, findShop_eraseShop_ne _ _ _ hd']

/-- C10 witness: both branches at a concrete two-entry table. -/
theorem c10_remove_shop_frame_witness :
    removeShop [("a.myshopify.com", ⟨"tA", "i1"⟩), ("b.myshopify.com", ⟨"tB", "i2"⟩)]
      "c.myshopify.com"
      = ⟨false, [("a.myshopify.com", ⟨"tA", "i1"⟩), ("b.myshopify.com", ⟨"tB", "i2"⟩)], false⟩ ∧
    findShop (removeShop
      [("a.myshopify.com", ⟨"tA", "i1"⟩), ("b.myshopify.com", ⟨"tB", "i2"⟩)]
      "a.myshopify.com").table "a.myshopify.com" = none ∧
    findShop (removeShop
      [("a.myshopify.com", ⟨"tA", "i1"⟩), ("b.myshopify.com", ⟨"tB", "i2"⟩)]
      "a.myshopify.com").table "b.myshopify.com"
      = findShop [("a.myshopify.com", ⟨"tA", "i1"⟩), ("b.myshopify.com", ⟨"tB", "i2"⟩)]
          "b.myshopify.com" :=
  ⟨(c10_remove_shop_frame
      [("a.myshopify.com", ⟨"tA", "i1"⟩), ("b.myshopify.com", ⟨"tB", "i2"⟩)]
      "c.myshopify.com").1 (by decide),
   ((c10_remove_shop_frame
      [("a.myshopify.com", ⟨"tA", "i1"⟩), ("b.myshopify.com", ⟨"tB", "i2"⟩)]
      "a.myshopify.com").2 ⟨"tA", "i1"⟩ (by decide)).2.2.1,
   ((c10_remove_shop_frame
      [("a.myshopify.com", ⟨"tA", "i1"⟩), ("b.myshopify.com", ⟨"tB", "i2"⟩)]
      "a.myshopify.com").2 ⟨"tA", "i1"⟩ (by decide)).2.2.2
     "b.myshopify.com" (by decide)⟩

/-! ## C6 — Bearer auth gate -/

/--
C6: both middleware variants implement the spec's gate exactly — no
configured secret (unset or empty) rejects every request fail-closed with
401 (`src/middleware/auth.js`) or 500 (the variant); a missing header, a
header not of the form `Bearer <token>`, or a token differing from the
secret is rejected with 401; a header carrying exactly the secret
proceeds.
-/
theorem c6_bearer_gate (envToken authHeader : Option String) :
    authMiddleware envToken authHeader = bearerGateSpec 401 envToken authHeader ∧
    authMiddlewareVariant envToken authHeader = bearerGateSpec 500 envToken authHeader := by
  cases envToken with
  | none => simp [authMiddleware, authMiddlewareVariant, bearerGateSpec, envTruthy]
  | some s =>
    by_cases hs : s = "" <;>
      cases authHeader <;>
        simp [authMiddleware, authMiddlewareVariant, bearerGateSpec, envTruthy, hs]

/-! ## C7 — orders limit clamp -/

theorem clamp_limit_bounds (v : Int) : 1 ≤ min (max v 1) 250 ∧ min (max v 1) 250 ≤ 250 :=
  ⟨le_min (le_max_right v 1) (by norm_num), min_le_right _ _⟩

/--
C7 (amended): the `limit` forwarded upstream always lies in `[1, 250]`;
a parsed **nonzero** integer is clamped into that range (`limit=9999` goes
out as 250); a missing or unparseable `limit` — and also `limit=0`, which
`parseInt(limit) || 10` collapses to the default — is forwarded as 10.
-/
theorem c7_limit_clamp (lim : Option String) :
    (1 ≤ ordersLimitForwarded lim ∧ ordersLimitForwarded lim ≤ 250) ∧
    (∀ s n, lim = some s → parseIntJs s = some n → n ≠ 0 →
      ordersLimitForwarded lim = min (max n 1) 250) ∧
    (lim = none → ordersLimitForwarded lim = 10) ∧
    (∀ s, lim = some s → parseIntJs s = none → ordersLimitForwarded lim = 10) ∧
    (∀ s, lim = some s → parseIntJs s = some 0 → ordersLimitForwarded lim = 10) ∧
    ordersLimitForwarded (some "9999") = 250 := by
  refine ⟨?_, ?_, ?_, ?_, ?_, by decide⟩
  · simp only [ordersLimitForwarded]
    exact clamp_limit_bounds _
  · intro s n hs hp hn
    subst hs
    simp [ordersLimitForwarded, hp, hn]
  · intro h
    subst h
    decide
  · intro s hs hp
    subst hs
    simp [ordersLimitForwarded, hp]
  · intro s hs hp
    subst hs
    simp [ordersLimitForwarded, hp]

/-- C7 witness: the clamp at `limit=9999` and the bounds at a concrete input. -/
theorem c7_limit_clamp_witness :
    ordersLimitForwarded (some "9999") = min (max (9999 : Int) 1) 250 ∧
    1 ≤ ordersLimitForwarded (some "abc") ∧
    ordersLimitForwarded (some "abc") = 10 :=
  ⟨(c7_limit_clamp (some "9999")).2.1 "9999" 9999 rfl (by decide) (by decide),
   (c7_limit_clamp (some "abc")).1.1,
   (c7_limit_clamp (some "abc")).2.2.2.1 "abc" rfl (by decide)⟩

/--
C7 counterexample: `limit=0` parses to the integer 0, whose clamp into
`[1, 250]` is 1, yet the code forwards the default 10 — `parseInt(limit)
|| 10` treats 0 as falsy, refuting "an integer limit is clamped".
-/
theorem c7_zero_limit_counterexample :
    parseIntJs "0" = some 0 ∧
    min (max (0 : Int) 1) 250 = 1 ∧
    ordersLimitForwarded (some "0") = 10 ∧
    ordersLimitForwarded (some "0") ≠ min (max (0 : Int) 1) 250 := by
  decide

/-! ## C9 — OrderView projection -/

theorem jfind_jsetField_ne (fs : List (String × Json)) (k : String) (v : Json)
    (k' : String) (h : k ≠ k') : jfind (jsetField fs k v) k' = jfind fs k' := by
  induction fs with
  | nil => simp [jsetField, jfind, h]
  | cons p rest ih =>
    obtain ⟨ka, va⟩ := p
    by_cases hk : ka = k
    · have hset : jsetField ((ka, va) :: rest) k v = (k, v) :: rest := by
        simp [jsetField, hk]
      have hka' : ka ≠ k' := by rw [hk]; exact h
      rw [hset]
      simp [jfind, h, hka']
    · have hset : jsetField ((ka, va) :: rest) k v = (ka, va) :: jsetField rest k v := by
        simp [jsetField, hk]
      rw [hset]
      by_cases hk' : ka = k' <;> simp [jfind, hk', ih]

theorem jget_jobjSetField_ne (o : Json) (k : String) (v : Json) (k' : String)
    (h : k ≠ k') : jget (jobjSetField o k v) k' = jget o k' := by
  cases o with
  | jobj fs =>
    show jget (Json.jobj (jsetField fs k v)) k' = jget (Json.jobj fs) k'
    simp only [jget]
    rw [jfind_jsetField_ne fs k v k' h]
  | jnull => rfl
  | jmissing => rfl
  | jbool b => rfl
  | jnum n => rfl
  | jstr s => rfl
  | jarr xs => rfl

/--
C9: `formatOrder` emits exactly the mapped key names — the fixed
top-level keys, a `customer` that is `null` or exactly
`{firstName, lastName, email}`, and line items with exactly
`{sku, title, quantity, variantId, productId}` — and its output is
insensitive to any upstream field outside the nine keys it reads, so no
unmapped upstream field can appear in the output.
-/
theorem c9_format_order_projection (o : Json) :
    topKeys (formatOrder o)
      = ["id", "name", "createdAt", "financialStatus", "fulfillmentStatus",
          "totalPrice", "currency", "customer", "lineItems"] ∧
    (jget (formatOrder o) "customer" = Json.jnull ∨
      topKeys (jget (formatOrder o) "customer") = ["firstName", "lastName", "email"]) ∧
    (∀ li ∈ jsArrayElems (jget (formatOrder o) "lineItems"),
      topKeys li = ["sku", "title", "quantity", "variantId", "productId"]) ∧
    (∀ k v, k ∉ (["id", "name", "created_at", "financial_status",
        "fulfillment_status", "total_price", "currency", "customer",
        "line_items"] : List String) →
      formatOrder (jobjSetField o k v) = formatOrder o) := by
  have hcust : jget (formatOrder o) "customer"
      = (if jsTruthy (jget o "customer") then
          Json.jobj
            [ ("firstName", jget (jget o "customer") "first_name"),
              ("lastName", jget (jget o "customer") "last_name"),
              ("email", jget (jget o "customer") "email") ]
        else Json.jnull) := rfl
  have hitems : jget (formatOrder o) "lineItems"
      = Json.jarr ((jsArrayElems
          (if jsTruthy (jget o "line_items") then jget o "line_items"
           else Json.jarr [])).map formatLineItem) := rfl
  refine ⟨rfl, ?_, ?_, ?_⟩
  · by_cases h : jsTruthy (jget o "customer")
    · right
      rw [hcust, if_pos h]
      rfl
    · left
      rw [hcust, if_neg h]
  · intro li hli
    rw [hitems] at hli
    simp only [jsArrayElems, List.mem_map] at hli
    obtain ⟨x, -, rfl⟩ := hli
    rfl
  · intro k v hk
    simp only [List.mem_cons, List.not_mem_nil, or_false, not_or] at hk
    obtain ⟨h1, h2, h3, h4, h5, h6, h7, h8, h9⟩ := hk
    simp only [formatOrder]
    rw [jget_jobjSetField_ne o k v "id" h1,
      jget_jobjSetField_ne o k v "name" h2,
      jget_jobjSetField_ne o k v "created_at" h3,
      jget_jobjSetField_ne o k v "financial_status" h4,
      jget_jobjSetField_ne o k v "fulfillment_status" h5,
      jget_jobjSetField_ne o k v "total_price" h6,
      jget_jobjSetField_ne o k v "currency" h7,
      jget_jobjSetField_ne o k v "customer" h8,
      jget_jobjSetField_ne o k v "line_items" h9]

/-- C9 witness: projection stability at a concrete order carrying an
unmapped upstream field, and the key lists at that order. -/
theorem c9_format_order_projection_witness :
    formatOrder (jobjSetField
        (.jobj [("id", .jnum 5), ("customer", .jobj [("first_name", .jstr "Ann")])])
        "internal_secret" (.jstr "zz"))
      = formatOrder (.jobj [("id", .jnum 5), ("customer", .jobj [("first_name", .jstr "Ann")])]) ∧
    topKeys (formatOrder (.jobj [("id", .jnum 5), ("customer", .jobj [("first_name", .jstr "Ann")])]))
      = ["id", "name", "createdAt", "financialStatus", "fulfillmentStatus",
          "totalPrice", "currency", "customer", "lineItems"] :=
  ⟨(c9_format_order_projection
      (.jobj [("id", .jnum 5), ("customer", .jobj [("first_name", .jstr "Ann")])])).2.2.2
      "internal_secret" (.jstr "zz") (by decide),
   (c9_format_order_projection
      (.jobj [("id", .jnum 5), ("customer", .jobj [("first_name", .jstr "Ann")])])).1⟩

/-! ## C1 — nonce single consumption -/

/--
C1: the code violates the single-consumption invariant on the
shop-mismatch branch.  With the nonce table holding `s1 ↦
shop-a.myshopify.com`, a callback for `shop-b.myshopify.com` with
`state=s1` is answered 403 but leaves the nonce in the table, and a second
callback replaying `state=s1` with the matching shop is *not* answered
403 — it proceeds to the exchange and saves a token.  (The digest
function is irrelevant on this path: no `hmac` parameter is supplied.)
-/
theorem c1_nonce_retained_on_shop_mismatch :
    (authCallback (fun _ _ => "00")
        ⟨some "key0", some "secret0", some "read_orders", some "https://app.example.com"⟩
        (.ok ⟨some "tok123"⟩) "t0"
        [("shop", "shop-b.myshopify.com"), ("code", "c0"), ("state", "s1")]
        [("s1", ⟨"shop-a.myshopify.com", 0⟩)] []).status = 403 ∧
    (authCallback (fun _ _ => "00")
        ⟨some "key0", some "secret0", some "read_orders", some "https://app.example.com"⟩
        (.ok ⟨some "tok123"⟩) "t0"
        [("shop", "shop-b.myshopify.com"), ("code", "c0"), ("state", "s1")]
        [("s1", ⟨"shop-a.myshopify.com", 0⟩)] []).nonces
      = [("s1", ⟨"shop-a.myshopify.com", 0⟩)] ∧
    (authCallback (fun _ _ => "00")
        ⟨some "key0", some "secret0", some "read_orders", some "https://app.example.com"⟩
        (.ok ⟨some "tok123"⟩) "t0"
        [("shop", "shop-a.myshopify.com"), ("code", "c0"), ("state", "s1")]
        [("s1", ⟨"shop-a.myshopify.com", 0⟩)] []).status = 200 ∧
    (authCallback (fun _ _ => "00")
        ⟨some "key0", some "secret0", some "read_orders", some "https://app.example.com"⟩
        (.ok ⟨some "tok123"⟩) "t0"
        [("shop", "shop-a.myshopify.com"), ("code", "c0"), ("state", "s1")]
        [("s1", ⟨"shop-a.myshopify.com", 0⟩)] []).saveInvoked = true := by
  refine ⟨rfl, rfl, rfl, rfl⟩

/-! ## C2 — HMAC mismatch handling -/

/--
C2 (amended): in the HMAC-verifying auth router, every callback that
carries a truthy `hmac` parameter and reaches the HMAC check (`shop`,
`code`, `state` present and truthy, shop domain valid, OAuth configuration
complete) whose recomputed digest does not match is answered 403, performs
no token exchange, and leaves the token store unchanged.
-/
theorem c2_hmac_mismatch_rejected (digest : String → String → String)
    (env : OAuthEnv) (exchange : ExchangeOutcome) (installedAt : String)
    (q : Query) (nonces : NonceTable) (shops : ShopsTable) (cfg : OAuthConfig)
    (shopv codev statev hmacv : String)
    (hshop : truthyParam q "shop" = some shopv)
    (hcode : truthyParam q "code" = some codev)
    (hstate : truthyParam q "state" = some statev)
    (hvalid : (validateAndNormalizeShop (some shopv)).valid = true)
    (hcfg : getOAuthConfig env = some cfg)
    (hhmac : truthyParam q "hmac" = some hmacv)
    (hfail : verifyHmac digest q cfg.clientSecret = false) :
    (authCallback digest env exchange installedAt q nonces shops).status = 403 ∧
    (authCallback digest env exchange installedAt q nonces shops).shops = shops ∧
    (authCallback digest env exchange installedAt q nonces shops).exchangeAttempted
      = false := by
  simp [authCallback, hshop, hcode, hstate, hvalid, hcfg, hhmac, hfail, callbackStop]

/-- C2 witness: a concrete mismatching callback that reaches the check is
answered 403 without touching the exchange or the store. -/
theorem c2_hmac_mismatch_rejected_witness :
    (authCallback (fun _ _ => "00")
        ⟨some "key0", some "secret0", some "read_orders", some "https://app.example.com"⟩
        (.ok ⟨some "tok123"⟩) "t0"
        [("shop", "shop-a.myshopify.com"), ("code", "c0"), ("state", "s1"), ("hmac", "zz")]
        [("s1", ⟨"shop-a.myshopify.com", 0⟩)] []).status = 403 ∧
    (authCallback (fun _ _ => "00")
        ⟨some "key0", some "secret0", some "read_orders", some "https://app.example.com"⟩
        (.ok ⟨some "tok123"⟩) "t0"
        [("shop", "shop-a.myshopify.com"), ("code", "c0"), ("state", "s1"), ("hmac", "zz")]
        [("s1", ⟨"shop-a.myshopify.com", 0⟩)] []).shops = [] ∧
    (authCallback (fun _ _ => "00")
        ⟨some "key0", some "secret0", some "read_orders", some "https://app.example.com"⟩
        (.ok ⟨some "tok123"⟩) "t0"
        [("shop", "shop-a.myshopify.com"), ("code", "c0"), ("state", "s1"), ("hmac", "zz")]
        [("s1", ⟨"shop-a.myshopify.com", 0⟩)] []).exchangeAttempted = false :=
  c2_hmac_mismatch_rejected (fun _ _ => "00")
    ⟨some "key0", some "secret0", some "read_orders", some "https://app.example.com"⟩
    (.ok ⟨some "tok123"⟩) "t0"
    [("shop", "shop-a.myshopify.com"), ("code", "c0"), ("state", "s1"), ("hmac", "zz")]
    [("s1", ⟨"shop-a.myshopify.com", 0⟩)] []
    ⟨"key0", "secret0", "read_orders", "https://app.example.com"⟩
    "shop-a.myshopify.com" "c0" "s1" "zz"
    rfl rfl rfl (by decide) rfl rfl (by decide)

/--
C2 counterexample: a callback carrying a mismatching `hmac` (the supplied
`zz` hex-decodes to no bytes, so it matches no recomputed digest) but
missing `code` is answered 400, not 403 — the required-parameter check
preempts the HMAC check, refuting the claim's "for every request that
carries an hmac query parameter".  The 400 is produced before the digest
function is ever consulted.
-/
theorem c2_param_check_preempts_hmac_counterexample :
    verifyHmac (fun _ _ => "00")
      [("shop", "shop-a.myshopify.com"), ("state", "s1"), ("hmac", "zz")] "secret0"
      = false ∧
    (authCallback (fun _ _ => "00")
        ⟨some "key0", some "secret0", some "read_orders", some "https://app.example.com"⟩
        (.ok ⟨some "tok123"⟩) "t0"
        [("shop", "shop-a.myshopify.com"), ("state", "s1"), ("hmac", "zz")]
        [("s1", ⟨"shop-a.myshopify.com", 0⟩)] []).status = 400 ∧
    (authCallback (fun _ _ => "00")
        ⟨some "key0", some "secret0", some "read_orders", some "https://app.example.com"⟩
        (.ok ⟨some "tok123"⟩) "t0"
        [("shop", "shop-a.myshopify.com"), ("state", "s1"), ("hmac", "zz")]
        [("s1", ⟨"shop-a.myshopify.com", 0⟩)] []).status ≠ 403 := by
  refine ⟨rfl, rfl, by decide⟩

/-! ## C8 — exchange without access_token -/

/--
C8: when the code-for-token exchange answers without an `access_token`
field, a callback that reached the exchange responds 500, never invokes
the token-store save, and leaves the token table unchanged.
-/
theorem c8_exchange_without_token (digest : String → String → String)
    (env : OAuthEnv) (installedAt : String) (q : Query)
    (nonces : NonceTable) (shops : ShopsTable) (cfg : OAuthConfig)
    (stored : NonceEntry) (shopv codev statev : String)
    (hshop : truthyParam q "shop" = some shopv)
    (hcode : truthyParam q "code" = some codev)
    (hstate : truthyParam q "state" = some statev)
    (hvalid : (validateAndNormalizeShop (some shopv)).valid = true)
    (hcfg : getOAuthConfig env = some cfg)
    (hhmacOk : truthyParam q "hmac" = none ∨ verifyHmac digest q cfg.clientSecret = true)
    (hnonce : nfind nonces statev = some stored)
    (hmatch : stored.shop = (validateAndNormalizeShop (some shopv)).normalized.getD "") :
    (authCallback digest env (.ok ⟨none⟩) installedAt q nonces shops).status = 500 ∧
    (authCallback digest env (.ok ⟨none⟩) installedAt q nonces shops).saveInvoked
      = false ∧
    (authCallback digest env (.ok ⟨none⟩) installedAt q nonces shops).shops = shops := by
  rcases hhmacOk with h | h <;>
    simp [authCallback, hshop, hcode, hstate, hvalid, hcfg, h, hnonce, hmatch,
      callbackStop]

/-- C8 witness: a concrete callback whose exchange response lacks
`access_token` ends in 500 with the token table untouched. -/
theorem c8_exchange_without_token_witness :
    (authCallback (fun _ _ => "00")
        ⟨some "key0", some "secret0", some "read_orders", some "https://app.example.com"⟩
        (.ok ⟨none⟩) "t0"
        [("shop", "shop-a.myshopify.com"), ("code", "c0"), ("state", "s1")]
        [("s1", ⟨"shop-a.myshopify.com", 0⟩)] []).status = 500 ∧
    (authCallback (fun _ _ => "00")
        ⟨some "key0", some "secret0", some "read_orders", some "https://app.example.com"⟩
        (.ok ⟨none⟩) "t0"
        [("shop", "shop-a.myshopify.com"), ("code", "c0"), ("state", "s1")]
        [("s1", ⟨"shop-a.myshopify.com", 0⟩)] []).saveInvoked = false ∧
    (authCallback (fun _ _ => "00")
        ⟨some "key0", some "secret0", some "read_orders", some "https://app.example.com"⟩
        (.ok ⟨none⟩) "t0"
        [("shop", "shop-a.myshopify.com"), ("code", "c0"), ("state", "s1")]
        [("s1", ⟨"shop-a.myshopify.com", 0⟩)] []).shops = [] :=
  c8_exchange_without_token (fun _ _ => "00")
    ⟨some "key0", some "secret0", some "read_orders", some "https://app.example.com"⟩
    "t0" [("shop", "shop-a.myshopify.com"), ("code", "c0"), ("state", "s1")]
    [("s1", ⟨"shop-a.myshopify.com", 0⟩)] []
    ⟨"key0", "secret0", "read_orders", "https://app.example.com"⟩
    ⟨"shop-a.myshopify.com", 0⟩ "shop-a.myshopify.com" "c0" "s1"
    rfl rfl rfl (by decide) rfl (Or.inl rfl) rfl (by decide)

/-! ## C4 — shop domain validity -/

theorem subdomainMatch_src_eq_spec (l : List Char) :
    subdomainMatchSrc l = subdomainMatchSpec l := by
  match l with
  | [] => rfl
  | [c] => simp [subdomainMatchSrc, subdomainMatchSpec]
  | a :: b :: t => simp [subdomainMatchSrc, subdomainMatchSpec, Bool.and_assoc]

theorem shopRegexTest_src_eq_spec (l : List Char) :
    shopRegexTestSrc l = shopRegexTestSpec l := by
  unfold shopRegexTestSrc shopRegexTestSpec
  cases splitMyshopifySuffix l with
  | none => rfl
  | some sub => exact subdomainMatch_src_eq_spec sub

/--
C4: `isValidShopDomain` decides exactly "the normalized form matches
`^[a-z0-9]([a-z0-9-]*[a-z0-9])?\.myshopify\.com$`" — the source's
two-alternative regex is extensionally the spec's regex — and the four
quoted examples hold (`foo.myshopify.com` valid; `foo.notshopify.com`,
`""` and `null` invalid).
-/
theorem c4_shop_domain_validity :
    (∀ s : Option String, isValidShopDomain s = isValidShopDomainSpec s) ∧
    isValidShopDomain (some "foo.myshopify.com") = true ∧
    isValidShopDomain (some "foo.notshopify.com") = false ∧
    isValidShopDomain (some "") = false ∧
    isValidShopDomain none = false := by
  refine ⟨?_, by decide, by decide, by decide, by decide⟩
  intro s
  unfold isValidShopDomain isValidShopDomainSpec
  cases hn : normalizeShopDomain s with
  | none => rfl
  | some n =>
    by_cases h : n = ""
    · subst h
      simp
      decide
    · simp [h, shopRegexTest_src_eq_spec]

/-! ## C5 — normalization idempotence -/

theorem char_toNat_ofNat_valid (n : Nat) (h : n < 55296) : (Char.ofNat n).toNat = n := by
  have hv : n.isValidChar := Or.inl h
  simp [Char.ofNat, hv, Char.ofNatAux, Char.toNat, UInt32.toNat]

theorem jsToLower_of_not_upper (c : Char) (h : ¬ (65 ≤ c.toNat ∧ c.toNat ≤ 90)) :
    jsToLower c = c := by
  unfold jsToLower
  exact if_neg h

theorem jsToLower_of_upper (c : Char) (h : 65 ≤ c.toNat ∧ c.toNat ≤ 90) :
    jsToLower c = Char.ofNat (c.toNat + 32) := by
  unfold jsToLower
  exact if_pos h

theorem jsToLower_idem (c : Char) : jsToLower (jsToLower c) = jsToLower c := by
  by_cases h : 65 ≤ c.toNat ∧ c.toNat ≤ 90
  · rw [jsToLower_of_upper c h]
    apply jsToLower_of_not_upper
    rw [char_toNat_ofNat_valid (c.toNat + 32) (by omega)]
    omega
  · rw [jsToLower_of_not_upper c h, jsToLower_of_not_upper c h]

theorem lowerChars_idem (l : List Char) : lowerChars (lowerChars l) = lowerChars l := by
  induction l with
  | nil => rfl
  | cons a t ih =>
    simp only [lowerChars, List.map_cons] at ih ⊢
    rw [jsToLower_idem, ih]

theorem jsToLower_eq_slash {c : Char} (h : jsToLower c = '/') : c = '/' := by
  by_cases hc : 65 ≤ c.toNat ∧ c.toNat ≤ 90
  · obtain ⟨hc1, hc2⟩ := hc
    rw [jsToLower_of_upper c ⟨hc1, hc2⟩] at h
    have hn := congrArg Char.toNat h
    rw [char_toNat_ofNat_valid (c.toNat + 32) (by omega)] at hn
    have h47 : ('/' : Char).toNat = 47 := by decide
    rw [h47] at hn
    omega
  · rwa [jsToLower_of_not_upper c hc] at h

theorem no_slash_lowerChars {l : List Char} (h : '/' ∉ l) : '/' ∉ lowerChars l := by
  intro hmem
  simp only [lowerChars] at hmem
  obtain ⟨a, ha, hla⟩ := List.mem_map.mp hmem
  exact h (jsToLower_eq_slash hla ▸ ha)

theorem no_slash_beforeFirstSlash (l : List Char) : '/' ∉ beforeFirstSlash l := by
  intro h
  have := List.mem_takeWhile_imp h
  simp at this

theorem mem_of_mem_dropWhile {p : Char → Bool} :
    ∀ {l : List Char} {c : Char}, c ∈ l.dropWhile p → c ∈ l := by
  intro l
  induction l with
  | nil => intro c h; simp at h
  | cons a t ih =>
    intro c h
    rw [List.dropWhile_cons] at h
    split at h
    · exact List.mem_cons_of_mem a (ih h)
    · exact h

theorem no_slash_dropTrailingSlashes {l : List Char} (h : '/' ∉ l) :
    '/' ∉ dropTrailingSlashes l := by
  intro hmem
  unfold dropTrailingSlashes at hmem
  exact h (List.mem_reverse.mp (mem_of_mem_dropWhile (List.mem_reverse.mp hmem)))

theorem beforeFirstSlash_of_no_slash {l : List Char} (h : '/' ∉ l) :
    beforeFirstSlash l = l := by
  unfold beforeFirstSlash
  induction l with
  | nil => rfl
  | cons a t ih =>
    have ha : a ≠ '/' := by
      intro e
      exact h (by rw [e]; exact List.mem_cons_self _ _)
    have h' : '/' ∉ t := fun hm => h (List.mem_cons_of_mem _ hm)
    simp only [List.takeWhile_cons]
    rw [if_pos (decide_eq_true ha), ih h']

theorem dropTrailingSlashes_of_no_slash {l : List Char} (h : '/' ∉ l) :
    dropTrailingSlashes l = l := by
  unfold dropTrailingSlashes
  cases hr : l.reverse with
  | nil =>
    have hl : l = [] := by simpa using congrArg List.reverse hr
    simp [hl]
  | cons a t =>
    have ha : a ≠ '/' := by
      intro e
      apply h
      have hma : a ∈ l.reverse := by rw [hr]; exact List.mem_cons_self _ _
      exact e ▸ List.mem_reverse.mp hma
    have hpa : ¬ ((fun x => decide (x = '/')) a = true) := by simp [ha]
    rw [List.dropWhile_cons]
    rw [if_neg hpa]
    rw [show (a :: t) = l.reverse from hr.symm]
    rw [List.reverse_reverse]

theorem slash_mem_of_startsWithCaseless : ∀ (pat l : List Char),
    startsWithCaseless pat l = true → '/' ∈ pat → '/' ∈ l := by
  intro pat
  induction pat with
  | nil =>
    intro l _ hm
    simp at hm
  | cons p ps ih =>
    intro l hs hm
    cases l with
    | nil => simp [startsWithCaseless] at hs
    | cons c cs =>
      simp only [startsWithCaseless, Bool.and_eq_true] at hs
      obtain ⟨hceq, hrest⟩ := hs
      rcases List.mem_cons.mp hm with he | hm'
      · have heq : jsToLower p = jsToLower c := by
          unfold charCaseEq at hceq
          exact of_decide_eq_true hceq
        rw [← he] at heq
        have hsl : jsToLower '/' = '/' := by decide
        rw [hsl] at heq
        rw [jsToLower_eq_slash heq.symm]
        exact List.mem_cons_self _ _
      · exact List.mem_cons_of_mem _ (ih cs hrest hm')

theorem stripProtocol_of_no_slash {l : List Char} (h : '/' ∉ l) :
    stripProtocol l = l := by
  have h1 : startsWithCaseless "https://".data l = false := by
    cases hb : startsWithCaseless "https://".data l
    · rfl
    · exact absurd (slash_mem_of_startsWithCaseless _ _ hb (by decide)) h
  have h2 : startsWithCaseless "http://".data l = false := by
    cases hb : startsWithCaseless "http://".data l
    · rfl
    · exact absurd (slash_mem_of_startsWithCaseless _ _ hb (by decide)) h
  simp [stripProtocol, h1, h2]

/--
C5 (amended): `normalize` is idempotent on every input whose first pass
yields a nonempty value with no surrounding whitespace — in particular on
every well-formed shop argument.  The two escapes forced by the
counterexample are a normalized form that is empty (`normalize(" ") = ""`
but `normalize("") = null`) or still whitespace-padded (protocol stripping
can expose inner whitespace, which only the second pass trims).
-/
theorem c5_normalize_idempotent (s : Option String) (r : String)
    (h : normalizeShopDomain s = some r) (hne : r ≠ "")
    (htrim : trimChars r.data = r.data) :
    normalizeShopDomain (normalizeShopDomain s) = normalizeShopDomain s := by
  rw [h]
  obtain ⟨x, hx⟩ :
      ∃ x, r.data = lowerChars (dropTrailingSlashes (beforeFirstSlash x)) := by
    cases s with
    | none => simp [normalizeShopDomain] at h
    | some s0 =>
      by_cases hs0 : s0 = ""
      · simp [normalizeShopDomain, hs0] at h
      · refine ⟨stripProtocol (trimChars s0.data), ?_⟩
        have hdef : normalizeShopDomain (some s0)
            = some (String.mk (lowerChars (dropTrailingSlashes (beforeFirstSlash
                (stripProtocol (trimChars s0.data)))))) := by
          simp [normalizeShopDomain, hs0]
        rw [hdef] at h
        rw [← Option.some.inj h]
  have hnos : '/' ∉ r.data := by
    rw [hx]
    exact no_slash_lowerChars (no_slash_dropTrailingSlashes (no_slash_beforeFirstSlash x))
  have hlow : lowerChars r.data = r.data := by
    conv_lhs => rw [hx]
    rw [lowerChars_idem]
    exact hx.symm
  show normalizeShopDomain (some r) = some r
  have hdef2 : normalizeShopDomain (some r)
      = some (String.mk (lowerChars (dropTrailingSlashes (beforeFirstSlash
          (stripProtocol (trimChars r.data)))))) := by
    simp [normalizeShopDomain, hne]
  rw [hdef2, htrim, stripProtocol_of_no_slash hnos, beforeFirstSlash_of_no_slash hnos,
    dropTrailingSlashes_of_no_slash hnos, hlow]

/-- C5 witness: idempotence at a concrete mixed-case input with a path. -/
theorem c5_normalize_idempotent_witness :
    normalizeShopDomain (normalizeShopDomain (some "A.B/x"))
      = normalizeShopDomain (some "A.B/x") :=
  c5_normalize_idempotent (some "A.B/x") "a.b" (by decide) (by decide) (by decide)

/--
C5 counterexample: at the blank input `" "`, the first pass yields `""`
(the input is truthy, and trimming empties it) while the second pass sends
`""` to `null` — so `normalize(normalize(s)) ≠ normalize(s)`, refuting
idempotence "for every input".
-/
theorem c5_blank_input_counterexample :
    normalizeShopDomain (some " ") = some "" ∧
    normalizeShopDomain (normalizeShopDomain (some " ")) = none ∧
    normalizeShopDomain (normalizeShopDomain (some " "))
      ≠ normalizeShopDomain (some " ") := by
  decide

end ShopifyOrdersApi
